import Mathlib

/-!
Verification development for `burp2xml.py`: a streaming transcoder turning
Burp Suite's hybrid binary/tag session stream into XML.

Bytes are modelled as `Nat` (values below 256 in real inputs), byte strings as
`List Nat`, and the Python 2 text written to the output sink as `String` where
each byte is the character of the same code point.  The zip entry is modelled
as the byte list it contains; `f.read(n)` becomes `readAmt`.
-/

/-- Byte of a `\w` regex word character: `[A-Za-z0-9_]` (ASCII, Python 2 `str`
pattern semantics). -/
def isWordByte (b : Nat) : Bool :=
  (65 ≤ b && b ≤ 90) || (97 ≤ b && b ≤ 122) || (48 ≤ b && b ≤ 57) || b == 95

/-- Length of the maximal run of word bytes at the head of the list (the greedy
`\w*` of the tag regex). -/
def wordRun : List Nat → Nat
  | [] => 0
  | b :: rest => if isWordByte b then wordRun rest + 1 else 0

/-- `TAG.match(chunk, offset)` for `TAG = re.compile('</?(\\w*)>', re.M)`
(line 23 of the source): anchored at `offset`, matches `<`, an optional `/`,
zero or more word bytes, then `>`.  Returns the matched bytes (`m.group()`)
and the end offset (`m.end()`), or `none` when the bytes there do not match. -/
def tagMatch (chunk : List Nat) (offset : Nat) : Option (List Nat × Nat) :=
  match chunk.get? offset with
  | some 60 =>
    let j := if chunk.get? (offset + 1) = some 47 then offset + 2 else offset + 1
    let k := j + wordRun (chunk.drop j)
    match chunk.get? k with
    | some 62 => some ((chunk.drop offset).take (k + 1 - offset), k + 1)
    | _ => none
  | _ => none

/-- `s.replace('<', '</')` on bytes (line 103: building `etag` from the matched
opening tag). -/
def ltReplace : List Nat → List Nat
  | [] => []
  | 60 :: rest => 60 :: 47 :: ltReplace rest
  | b :: rest => b :: ltReplace rest

/-- The Python 2 byte string as output text: each byte becomes the character of
the same code point. -/
def byteStr (bs : List Nat) : String :=
  String.mk (bs.map Char.ofNat)

/-- Big-endian value of a byte list; on 4 bytes this is `struct.unpack('>I',·)`
and on 8 bytes `struct.unpack('>Q',·)`. -/
def beNat (bs : List Nat) : Nat :=
  bs.foldl (fun a b => a * 256 + b) 0

/-- Byte values of `string.printable.replace('\x0b','').replace('\x0c','')`
(line 24 of the source), in Python's order: digits, lowercase, uppercase,
punctuation, then the remaining whitespace `' \t\n\r'`. -/
def nvprint : List Nat :=
  List.range' 48 10 ++ List.range' 97 26 ++ List.range' 65 26 ++
  List.range' 33 15 ++ List.range' 58 7 ++ List.range' 91 6 ++
  List.range' 123 4 ++ [32, 9, 10, 13]

/-- Civil date (year, month, day) of a day count since 1970-01-01 (proleptic
Gregorian, day 0 = 1970-01-01); the classic era-based conversion used to model
what Python's `datetime.fromtimestamp` computes for nonnegative timestamps. -/
def civilFromDays (z : Nat) : Nat × Nat × Nat :=
  let doe := (z + 719468) % 146097
  let era := (z + 719468) / 146097
  let yoe := (doe - doe / 1460 + doe / 36524 - doe / 146096) / 365
  let y := yoe + era * 400
  let doy := doe - (365 * yoe + yoe / 4 - yoe / 100)
  let mp := (5 * doy + 2) / 153
  let d := doy - (153 * mp + 2) / 5 + 1
  let m := if mp < 10 then mp + 3 else mp - 9
  (if m ≤ 2 then y + 1 else y, m, d)

/-- Day count since 1970-01-01 of a civil date (inverse of `civilFromDays`,
used only to compute the weekday that `datetime.ctime` prints). -/
def daysFromCivil (y m d : Nat) : Nat :=
  let yy := if m ≤ 2 then y - 1 else y
  let era := yy / 400
  let yoe := yy % 400
  let mp := (m + 9) % 12
  let doy := (153 * mp + 2) / 5 + d - 1
  let doe := yoe * 365 + yoe / 4 - yoe / 100 + doy
  era * 146097 + doe - 719468

/-- The fields of the `datetime.datetime` built on line 37 of the source that
`ctime()` prints (the microsecond field is dropped by `ctime`). -/
structure PyDate where
  year : Nat
  month : Nat
  day : Nat
  hour : Nat
  minute : Nat
  second : Nat
deriving DecidableEq, Repr

/-- Largest POSIX timestamp `datetime.fromtimestamp` accepts (23:59:59 on
9999-12-31 UTC, the upper bound of CPython's `datetime` range). -/
def maxTimestamp : Nat := 253402300799

/-- `milliseconds_to_date` (lines 26-41): convert Java epoch milliseconds to a
date, or fall back (`none`, the `except ValueError` arm, which the caller turns
into `str(milliseconds)`) when the value is outside the representable range.
The platform-dependent parts of `datetime.fromtimestamp` are modelled as: local
timezone = UTC, representable range = CPython's year-9999 bound. -/
def milliseconds_to_date (ms : Nat) : Option PyDate :=
  if maxTimestamp < ms / 1000 then none
  else
    let secs := ms / 1000
    let c := civilFromDays (secs / 86400)
    some ⟨c.1, c.2.1, c.2.2, secs % 86400 / 3600, secs % 86400 % 3600 / 60, secs % 60⟩

/-- Three-letter month name used by `ctime`. -/
def monthName (m : Nat) : String :=
  match m with
  | 1 => "Jan" | 2 => "Feb" | 3 => "Mar" | 4 => "Apr" | 5 => "May" | 6 => "Jun"
  | 7 => "Jul" | 8 => "Aug" | 9 => "Sep" | 10 => "Oct" | 11 => "Nov" | _ => "Dec"

/-- Three-letter weekday name used by `ctime` (0 = Sunday). -/
def dayName (w : Nat) : String :=
  match w with
  | 0 => "Sun" | 1 => "Mon" | 2 => "Tue" | 3 => "Wed" | 4 => "Thu" | 5 => "Fri" | _ => "Sat"

/-- `%2d`: decimal, space-padded to width two. -/
def pad2s (n : Nat) : String := if n < 10 then " " ++ toString n else toString n

/-- `%02d`: decimal, zero-padded to width two. -/
def pad2z (n : Nat) : String := if n < 10 then "0" ++ toString n else toString n

/-- `%04d`: decimal, zero-padded to width four. -/
def pad4z (n : Nat) : String :=
  if n < 10 then "000" ++ toString n
  else if n < 100 then "00" ++ toString n
  else if n < 1000 then "0" ++ toString n
  else toString n

/-- `datetime.ctime()`: `"%s %s %2d %02d:%02d:%02d %04d"` with weekday name,
month name, day, time and year (1970-01-01 was a Thursday). -/
def pyCtime (d : PyDate) : String :=
  let w := (daysFromCivil d.year d.month d.day + 4) % 7
  dayName w ++ " " ++ monthName d.month ++ " " ++ pad2s d.day ++ " " ++
  pad2z d.hour ++ ":" ++ pad2z d.minute ++ ":" ++ pad2z d.second ++ " " ++ pad4z d.year

/-- The `sys.stderr.write` text of lines 45-46 of the source, emitted when a
field declares more bytes than the buffer holds. -/
def underrunMessage (ftype flen : Nat) (got : Int) : String :=
  "Something went terribly wrong, not enough data for field parsing. Was parsing type " ++
  toString ftype ++ " of length " ++ toString flen ++ " but only got " ++
  toString got ++ " data\n"

/-- `value.replace(']]>', ']]><![CDATA[')` on bytes (line 68): Python's
left-to-right non-overlapping replacement. -/
def cdataRepl : List Nat → List Nat
  | 93 :: 93 :: 62 :: rest =>
    93 :: 93 :: 62 :: 60 :: 33 :: 91 :: 67 :: 68 :: 65 :: 84 :: 65 :: 91 :: cdataRepl rest
  | b :: rest => b :: cdataRepl rest
  | [] => []

/-- Line 68: `'<![CDATA[' + value.replace(']]>',']]><![CDATA[') + ']]>'`. -/
def cdataWrapB (v : List Nat) : List Nat :=
  [60, 33, 91, 67, 68, 65, 84, 65, 91] ++ cdataRepl v ++ [93, 93, 62]

/-- `parse_field(data, offset, field_type, field_len, non_printable)`
(lines 43-69).  First component: the returned value (`none` is Python's `None`,
both for the underrun branch and for an unknown `field_type` falling off the
end of the `elif` chain).  Second component: the text written to `sys.stderr`
(empty when nothing is written). -/
def parse_field (data : List Nat) (offset ftype flen : Nat) (np : Bool) :
    Option String × String :=
  if (data.length : Int) - offset < flen then
    (none, underrunMessage ftype flen ((data.length : Int) - offset))
  else if ftype = 0 then
    (some (toString (beNat ((data.drop offset).take flen))), "")
  else if ftype = 1 then
    let u := beNat ((data.drop offset).take flen)
    if data.getD offset 0 = 0 then
      match milliseconds_to_date u with
      | none => (some (toString u), "")
      | some d => (some (pyCtime d), "")
    else (some (toString u), "")
  else if ftype = 2 then
    (some (if data.getD offset 0 = 0 then "False" else "True"), "")
  else if ftype = 3 then
    let value := (data.drop offset).take flen
    let fv := if np then value else value.filter (fun b => decide (b ∈ nvprint))
    if 60 ∈ fv ∨ 62 ∈ fv ∨ 38 ∈ fv then (some (byteStr (cdataWrapB fv)), "")
    else (some (byteStr fv), "")
  else (none, "")

/-- `identify_field(data, offset)` (lines 71-88): read one type byte and map it
to `(field_type, field_len, used_bytes)`; `none` is the `(None, -1, 0)` failure
return. -/
def identify_field (data : List Nat) (offset : Nat) : Option (Nat × Nat × Nat) :=
  if data.length - offset < 1 then none
  else
    let b := data.getD offset 0
    if b = 0 then some (0, 4, 1)
    else if b = 1 then some (1, 8, 1)
    else if b = 2 then some (2, 1, 1)
    else if b = 3 ∨ b = 4 then
      if data.length - offset < 5 then none
      else some (3, beNat ((data.drop (offset + 1)).take 4), 5)
    else none

/-- `f.read(n)` on the remaining stream: a negative `n` reads everything,
otherwise up to `n` bytes; returns (bytes read, remaining stream). -/
def readAmt (n : Int) (s : List Nat) : List Nat × List Nat :=
  match s with
  | [] => ([], [])
  | _ :: _ => if n < 0 then (s, []) else (s.take n.toNat, s.drop n.toNat)

/-- Module constant `CHUNK_SIZE` (line 21); "use negative number to read the
whole file at once". -/
def CHUNK_SIZE : Int := 10240

/-- How a run of the transcoder ended abnormally: `corrupt` is the
`break` after `identify_field` returns `None` (line 110-111); `underrun` is the
`TypeError` raised by `output.write(None)` when `parse_field` returns `None`
(line 118), which aborts the function before the root closing tag is written. -/
inductive Err
  | corrupt
  | underrun
deriving DecidableEq, Repr

/-- The `while m:` loop of `burp_to_xml` (lines 100-128), with explicit fuel.
Arguments: fuel, remaining stream, current chunk, current match `m`.
Returns `none` when the fuel runs out, otherwise the text written inside the
loop together with how the loop ended. -/
def runLoop (cs : Int) (np : Bool) :
    Nat → List Nat → List Nat → Option (List Nat × Nat) → Option (String × Option Err)
  | _, _, _, none => some ("", none)
  | 0, _, _, some _ => none
  | fuel + 1, stream, chunk, some g =>
    let out1 := byteStr g.1
    let offset := g.2
    let etag := ltReplace g.1
    match tagMatch chunk offset with
    | some m2 =>
      match runLoop cs np fuel stream chunk (some m2) with
      | none => none
      | some r => some (out1 ++ r.1, r.2)
    | none =>
      if (chunk.length : Int) - offset = 0 then some (out1, none)
      else
        match identify_field chunk offset with
        | none => some (out1, some Err.corrupt)
        | some fd =>
          let ft := fd.1
          let fl := fd.2.1
          let offset2 := offset + fd.2.2
          let rem0 : Int := (chunk.length : Int) - offset2 - fl - etag.length
          let t :=
            if rem0 < 0 then
              (chunk ++ (readAmt (0 - rem0) stream).1, (readAmt (0 - rem0) stream).2, (0 : Int))
            else (chunk, stream, rem0)
          let chunk2 := t.1
          let stream2 := t.2.1
          let rem := t.2.2
          match (parse_field chunk2 offset2 ft fl np).1 with
          | none => some (out1, some Err.underrun)
          | some v =>
            let out2 := out1 ++ v ++ byteStr etag
            let offset3 := offset2 + fl + etag.length
            let t2 :=
              if rem = 0 then ((readAmt cs stream2).1, 0, (readAmt cs stream2).2)
              else if rem < 100 then
                (chunk2 ++ (readAmt cs stream2).1, offset3, (readAmt cs stream2).2)
              else (chunk2, offset3, stream2)
            match runLoop cs np fuel t2.2.2 t2.1 (tagMatch t2.1 t2.2.1) with
            | none => none
            | some r => some (out2 ++ r.1, r.2)

/-- The literal written before the loop (line 97). -/
def xmlHeader : String := "<?xml version=\"1.0\"?><burp>"

/-- `burp_to_xml` (lines 90-130) on the byte content of the zip entry, with
explicit fuel for the loop.  Returns the full text written to the output sink
and how the run ended; `none` when the fuel runs out.  On the `underrun` crash
the root closing tag is not appended (the `TypeError` escapes the function);
on every other ending `'</burp>'` is written (line 130). -/
def burp_to_xml (cs : Int) (np : Bool) (input : List Nat) (fuel : Nat) :
    Option (String × Option Err) :=
  let chunk := (readAmt 100 input).1
  let rest := (readAmt 100 input).2
  match runLoop cs np fuel rest chunk (tagMatch chunk 0) with
  | none => none
  | some r =>
    some (xmlHeader ++ r.1 ++ (if r.2 = some Err.underrun then "" else "</burp>"), r.2)

/-- `startsList n l`: the list `n` is a prefix of `l`. -/
def startsList : List Char → List Char → Bool
  | [], _ => true
  | _ :: _, [] => false
  | a :: as, b :: bs => a == b && startsList as bs

/-- `hasSub hay needle`: `needle` occurs contiguously inside `hay`. -/
def hasSub : List Char → List Char → Bool
  | [], n => n.isEmpty
  | h :: t, n => startsList n (h :: t) || hasSub t n

/-- Substring test on strings (used to state what an error message "names"). -/
def strContains (hay needle : String) : Bool :=
  hasSub hay.data needle.data

/-- Content of one CDATA section body: the characters before the first `]]>`
terminator, together with what follows the terminator. -/
def cdataBody : List Char → Option (List Char × List Char)
  | ']' :: ']' :: '>' :: rest => some ([], rest)
  | c :: rest =>
    match cdataBody rest with
    | none => none
    | some p => some (c :: p.1, p.2)
  | [] => none

/-- Concatenated contents of a maximal run of adjoining `<![CDATA[...]]>`
sections (what an XML reader recovers from them), with fuel. -/
def cdataConcatF : Nat → List Char → Option (List Char)
  | _, [] => some []
  | 0, _ => none
  | fuel + 1, s =>
    if s.take 9 = "<![CDATA[".data then
      match cdataBody (s.drop 9) with
      | none => none
      | some p =>
        match cdataConcatF fuel p.2 with
        | none => none
        | some r => some (p.1 ++ r)
    else none

/-- String-level wrapper of `cdataConcatF`. -/
def cdataJoin (s : String) : Option String :=
  match cdataConcatF (s.data.length + 1) s.data with
  | none => none
  | some l => some (String.mk l)

/-- The set of bytes claim C8 says survive the non-printable filter: letters,
digits, punctuation and space only (that is, 0x20-0x7E), explicitly without
vertical tab and form feed.  Stated from the claim's words, to be compared
against the source's `nvprint`. -/
def specKeptByte (b : Nat) : Bool := 32 ≤ b && b ≤ 126

theorem getD_append_cons (pre : List Nat) (b : Nat) (post : List Nat) :
    (pre ++ b :: post).getD pre.length 0 = b := by
  induction pre with
  | nil => rfl
  | cons a l ih => simpa using ih

theorem drop_append_cons (pre : List Nat) (b : Nat) (post : List Nat) :
    (pre ++ b :: post).drop (pre.length + 1) = post := by
  induction pre with
  | nil => rfl
  | cons a l ih => simp

theorem startsList_append (n t : List Char) : startsList n (n ++ t) = true := by
  induction n with
  | nil => rfl
  | cons a as ih => simp [startsList, ih]

theorem hasSub_sandwich (x n y : List Char) : hasSub (x ++ n ++ y) n = true := by
  induction x with
  | nil =>
    cases n with
    | nil => cases y <;> simp [hasSub, startsList]
    | cons m ms =>
      have h := startsList_append (m :: ms) y
      simp only [List.nil_append, List.cons_append, hasSub, Bool.or_eq_true]
      exact Or.inl (by simpa using h)
  | cons a t ih =>
    simp only [List.cons_append, hasSub, Bool.or_eq_true]
    exact Or.inr (by simpa using ih)

theorem strContains_sandwich (a n b : String) : strContains (a ++ n ++ b) n = true := by
  have h := hasSub_sandwich a.data n.data b.data
  simpa [strContains, String.data_append] using h

theorem readAmt_nil (n : Int) : readAmt n [] = ([], []) := rfl

theorem runLoop_stream_nil (np : Bool) :
    ∀ (fuel : Nat) (cs1 cs2 : Int) (chunk : List Nat) (m : Option (List Nat × Nat)),
    runLoop cs1 np fuel [] chunk m = runLoop cs2 np fuel [] chunk m := by
  intro fuel
  induction fuel with
  | zero => intro cs1 cs2 chunk m; cases m <;> rfl
  | succ n ih =>
    intro cs1 cs2 chunk m
    cases m with
    | none => rfl
    | some g =>
      simp only [runLoop, readAmt_nil]
      cases htm : tagMatch chunk g.2 with
      | some m2 => dsimp only; rw [ih cs1 cs2 chunk (some m2)]
      | none =>
        dsimp only
        split
        · rfl
        · cases hid : identify_field chunk g.2 with
          | none => rfl
          | some fd =>
            dsimp only
            by_cases hneg : ((chunk.length : Int) - ((g.2 + fd.2.2 : Nat) : Int) - fd.2.1 -
                (ltReplace g.1).length < 0)
            · simp only [if_pos hneg]
              cases hp : (parse_field (chunk ++ [])
                  (g.2 + fd.2.2) fd.1 fd.2.1 np).1 with
              | none => rfl
              | some v =>
                dsimp only
                simp only [if_true, readAmt_nil]
                rw [ih cs1 cs2 [] (tagMatch [] 0)]
            · simp only [if_neg hneg]
              cases hp : (parse_field chunk (g.2 + fd.2.2) fd.1 fd.2.1 np).1 with
              | none => rfl
              | some v =>
                dsimp only
                by_cases h0 : ((chunk.length : Int) - ((g.2 + fd.2.2 : Nat) : Int) - fd.2.1 -
                    (ltReplace g.1).length = 0)
                · simp only [if_pos h0, readAmt_nil]
                  rw [ih cs1 cs2 [] (tagMatch [] 0)]
                · simp only [if_neg h0]
                  by_cases h100 : ((chunk.length : Int) - ((g.2 + fd.2.2 : Nat) : Int) - fd.2.1 -
                      (ltReplace g.1).length < 100)
                  · simp only [if_pos h100, readAmt_nil]
                    rw [ih cs1 cs2 (chunk ++ []) (tagMatch (chunk ++ [])
                      (g.2 + fd.2.2 + fd.2.1 + (ltReplace g.1).length))]
                  · simp only [if_neg h100]
                    rw [ih cs1 cs2 chunk (tagMatch chunk
                      (g.2 + fd.2.2 + fd.2.1 + (ltReplace g.1).length))]

/-- C1 theorem: on the string field value `a]]>b` the decoder emits
`<![CDATA[a]]><![CDATA[b]]>` — two adjoining CDATA sections whose contents
concatenate to `ab`, not to the original `a]]>b`: the replacement on line 68
drops the `]]>` text instead of preserving it across the split. -/
theorem c1_cdata_split_loses_text :
    parse_field [97, 93, 93, 62, 98] 0 3 5 false = (some "<![CDATA[a]]><![CDATA[b]]>", "") ∧
    cdataJoin "<![CDATA[a]]><![CDATA[b]]>" = some "ab" ∧
    ("ab" : String) ≠ "a]]>b" :=
  ⟨rfl, rfl, by decide⟩

/-- C2 counterexample: a concrete 133-byte document on which chunk size 10 and
read-everything (-1) produce different results — the small chunk cuts the tag
`<abcdefghijklm>` at a refill boundary and the run silently truncates. -/
def c2doc : List Nat :=
  [60, 97, 62, 3, 0, 0, 0, 88] ++ List.replicate 88 120 ++ [60, 47, 97, 62] ++
  [60, 97, 98, 99, 100, 101, 102, 103, 104, 105, 106, 107, 108, 109, 62] ++ [2, 1] ++
  [60, 47, 97, 98, 99, 100, 101, 102, 103, 104, 105, 106, 107, 108, 109, 62]

/-- C2 counterexample theorem: chunk size 10 and read-all disagree on `c2doc`. -/
theorem c2_counterexample : burp_to_xml 10 false c2doc 6 ≠ burp_to_xml (-1) false c2doc 6 := by
  decide

/-- C2 amended: chunk-size independence holds for inputs the initial 100-byte
read consumes entirely (every refill then returns nothing whatever the
configured chunk size); larger inputs can differ when a refill boundary cuts a
tag marker. -/
theorem c2_amended (cs1 cs2 : Int) (np : Bool) (input : List Nat) (fuel : Nat)
    (h : input.length ≤ 100) :
    burp_to_xml cs1 np input fuel = burp_to_xml cs2 np input fuel := by
  have hrest : (readAmt 100 input).2 = [] := by
    cases input with
    | nil => rfl
    | cons a l =>
      simp only [readAmt]
      rw [if_neg (by decide)]
      exact List.drop_eq_nil_of_le (by simpa using h)
  simp only [burp_to_xml]
  rw [hrest, runLoop_stream_nil np fuel cs1 cs2]

/-- C2 witness: the amended theorem applied to a nine-byte document. -/
theorem c2_witness :
    burp_to_xml 10 false [60, 98, 62, 2, 0, 60, 47, 98, 62] 3 =
      burp_to_xml (-1) false [60, 98, 62, 2, 0, 60, 47, 98, 62] 3 :=
  c2_amended 10 (-1) false [60, 98, 62, 2, 0, 60, 47, 98, 62] 3 (by decide)

/-- C3 counterexample: after the Boolean value in `<a>\x02\x01XXXX` the next
four bytes are `XXXX`, not the closing tag `</a>`, yet the transcoder reports
no failure at all (there is no tag-mismatch check) and emits `</a>` anyway. -/
theorem c3_counterexample :
    burp_to_xml CHUNK_SIZE false [60, 97, 62, 2, 1, 88, 88, 88, 88] 2 =
      some (xmlHeader ++ "<a>True</a>" ++ "</burp>", none) ∧
    [88, 88, 88, 88] ≠ ltReplace [60, 97, 62] :=
  ⟨rfl, by decide⟩

/-- C3 amended: the closing tag emitted after a decoded value is synthesised
from the opening tag (its `<` replaced by `</`), never read from the stream;
the transcoder skips that many stream bytes unverified, so any four bytes in
the closing-tag position give the same successful output. -/
theorem c3_amended (cs : Int) (np : Bool) (b1 b2 b3 b4 : Nat) :
    burp_to_xml cs np [60, 97, 62, 2, 1, b1, b2, b3, b4] 2 =
      some (xmlHeader ++ "<a>" ++ "True" ++ "</a>" ++ "</burp>", none) := rfl

/-- C4 counterexample: a string field declaring 200 bytes with only 30
available fails with the stderr line naming the type (3), the declared length
(200) and the available byte count (30) — but not the byte offset (8), whose
decimal does not occur in the message. -/
theorem c4_counterexample :
    (parse_field ([60, 97, 62, 3, 0, 0, 0, 200] ++ List.replicate 30 120) 8 3 200 false).2 =
      underrunMessage 3 200 30 ∧
    strContains (underrunMessage 3 200 30) "200" = true ∧
    strContains (underrunMessage 3 200 30) "8" = false := by
  refine ⟨rfl, by decide, by decide⟩

/-- C4 amended: when a field declares more bytes than remain, decoding returns
`None` and the stderr message names the field type, the declared length and
the number of bytes available (not the byte offset); the transcoder then
terminates at once with an underrun crash (root closing tag not appended), as
the concrete truncated document shows. -/
theorem c4_amended :
    (∀ (data : List Nat) (offset ftype flen : Nat) (np : Bool),
      (data.length : Int) - offset < flen →
      (parse_field data offset ftype flen np).1 = none ∧
      strContains (parse_field data offset ftype flen np).2 (toString ftype) = true ∧
      strContains (parse_field data offset ftype flen np).2 (toString flen) = true ∧
      strContains (parse_field data offset ftype flen np).2
        (toString ((data.length : Int) - offset)) = true) ∧
    burp_to_xml CHUNK_SIZE false ([60, 97, 62, 3, 0, 0, 0, 200] ++ List.replicate 30 120) 5 =
      some (xmlHeader ++ "<a>", some Err.underrun) := by
  refine ⟨?_, rfl⟩
  intro data offset ftype flen np h
  have hp : parse_field data offset ftype flen np =
      (none, underrunMessage ftype flen ((data.length : Int) - offset)) := by
    unfold parse_field
    rw [if_pos h]
  rw [hp]
  refine ⟨rfl, ?_, ?_, ?_⟩
  · show hasSub (underrunMessage ftype flen ((data.length : Int) - offset)).data
      (toString ftype).data = true
    have hd : (underrunMessage ftype flen ((data.length : Int) - offset)).data =
        ("Something went terribly wrong, not enough data for field parsing. Was parsing type ").data ++
        (toString ftype).data ++
        (" of length " ++ toString flen ++ " but only got " ++
          toString ((data.length : Int) - offset) ++ " data\n").data := by
      simp [underrunMessage, String.data_append]
    rw [hd]
    exact hasSub_sandwich _ _ _
  · show hasSub (underrunMessage ftype flen ((data.length : Int) - offset)).data
      (toString flen).data = true
    have hd : (underrunMessage ftype flen ((data.length : Int) - offset)).data =
        ("Something went terribly wrong, not enough data for field parsing. Was parsing type " ++
          toString ftype ++ " of length ").data ++
        (toString flen).data ++
        (" but only got " ++ toString ((data.length : Int) - offset) ++ " data\n").data := by
      simp [underrunMessage, String.data_append]
    rw [hd]
    exact hasSub_sandwich _ _ _
  · show hasSub (underrunMessage ftype flen ((data.length : Int) - offset)).data
      (toString ((data.length : Int) - offset)).data = true
    have hd : (underrunMessage ftype flen ((data.length : Int) - offset)).data =
        ("Something went terribly wrong, not enough data for field parsing. Was parsing type " ++
          toString ftype ++ " of length " ++ toString flen ++ " but only got ").data ++
        (toString ((data.length : Int) - offset)).data ++
        (" data\n").data := by
      simp [underrunMessage, String.data_append]
    rw [hd]
    exact hasSub_sandwich _ _ _

/-- C4 witness: the general part of the amended theorem applied to a one-byte
buffer asked for a five-byte field. -/
theorem c4_witness :
    (parse_field [97] 0 3 5 false).1 = none ∧
    strContains (parse_field [97] 0 3 5 false).2 (toString 3) = true ∧
    strContains (parse_field [97] 0 3 5 false).2 (toString 5) = true ∧
    strContains (parse_field [97] 0 3 5 false).2 (toString (([97].length : Int) - 0)) = true :=
  c4_amended.1 [97] 0 3 5 false (by decide)

/-- C5 theorem: `identify_field` maps the type byte exactly per the table —
0x00 to (Integer, 4, 1), 0x01 to (LongOrDate, 8, 1), 0x02 to (Boolean, 1, 1),
0x03 and 0x04 to (String, big-endian 32-bit length from the next four bytes,
5) — and any other byte fails; on an unknown byte the transcoder halts with
`corrupt`, keeping the already-written output and the root closing tag. -/
theorem c5_identify_table :
    (∀ (pre post : List Nat),
      identify_field (pre ++ 0 :: post) pre.length = some (0, 4, 1) ∧
      identify_field (pre ++ 1 :: post) pre.length = some (1, 8, 1) ∧
      identify_field (pre ++ 2 :: post) pre.length = some (2, 1, 1) ∧
      (∀ b : Nat, identify_field (pre ++ (b + 5) :: post) pre.length = none)) ∧
    (∀ (pre : List Nat) (a b c d : Nat) (rest : List Nat),
      identify_field (pre ++ 3 :: a :: b :: c :: d :: rest) pre.length =
        some (3, ((a * 256 + b) * 256 + c) * 256 + d, 5) ∧
      identify_field (pre ++ 4 :: a :: b :: c :: d :: rest) pre.length =
        some (3, ((a * 256 + b) * 256 + c) * 256 + d, 5)) ∧
    burp_to_xml CHUNK_SIZE false [60, 97, 62, 5] 3 =
      some (xmlHeader ++ "<a>" ++ "</burp>", some Err.corrupt) := by
  have hlen : ∀ (pre : List Nat) (b : Nat) (post : List Nat),
      ¬ ((pre ++ b :: post).length - pre.length < 1) := by
    intro pre b post
    simp only [List.length_append, List.length_cons]
    omega
  refine ⟨?_, ?_, rfl⟩
  · intro pre post
    refine ⟨?_, ?_, ?_, ?_⟩
    · simp only [identify_field, getD_append_cons, if_neg (hlen pre 0 post)]
      rfl
    · simp only [identify_field, getD_append_cons, if_neg (hlen pre 1 post)]
      rfl
    · simp only [identify_field, getD_append_cons, if_neg (hlen pre 2 post)]
      rfl
    · intro b
      have h1 : ¬ (b + 5 = 0) := by omega
      have h2 : ¬ (b + 5 = 1) := by omega
      have h3 : ¬ (b + 5 = 2) := by omega
      have h4 : ¬ (b + 5 = 3 ∨ b + 5 = 4) := by omega
      simp only [identify_field, getD_append_cons, if_neg (hlen pre (b + 5) post),
        if_neg h1, if_neg h2, if_neg h3, if_neg h4]
  · intro pre a b c d rest
    have h5 : ∀ (x : Nat),
        ¬ ((pre ++ x :: a :: b :: c :: d :: rest).length - pre.length < 5) := by
      intro x
      simp only [List.length_append, List.length_cons]
      omega
    have hdrop : ∀ (x : Nat),
        ((pre ++ x :: a :: b :: c :: d :: rest).drop (pre.length + 1)).take 4 =
          [a, b, c, d] := by
      intro x
      rw [drop_append_cons]
      rfl
    have hbe : beNat [a, b, c, d] = ((a * 256 + b) * 256 + c) * 256 + d := by
      simp [beNat]
    constructor
    · simp only [identify_field, getD_append_cons,
        if_neg (hlen pre 3 (a :: b :: c :: d :: rest)), if_neg (h5 3), hdrop 3, hbe]
      rfl
    · simp only [identify_field, getD_append_cons,
        if_neg (hlen pre 4 (a :: b :: c :: d :: rest)), if_neg (h5 4), hdrop 4, hbe]
      rfl

/-- C6 theorem: a LongOrDate value in date form (leading value byte zero)
whose millisecond count lies beyond the representable date range decodes to
the raw decimal text of the 64-bit value instead of failing. -/
theorem c6_out_of_range_date (bs : List Nat) (np : Bool)
    (hlen : bs.length = 8) (hflag : bs.getD 0 0 = 0)
    (hrange : maxTimestamp < beNat bs / 1000) :
    (parse_field bs 0 1 8 np).1 = some (toString (beNat bs)) := by
  have htake : bs.take 8 = bs := by
    rw [← hlen]
    exact List.take_length bs
  have hur : ¬ ((bs.length : Int) - ((0 : Nat) : Int) < ((8 : Nat) : Int)) := by
    rw [hlen]
    decide
  have hms : milliseconds_to_date (beNat bs) = none := by
    unfold milliseconds_to_date
    rw [if_pos hrange]
  have h10 : ¬ ((1 : Nat) = 0) := by decide
  unfold parse_field
  rw [if_neg hur, if_neg h10, if_pos rfl]
  simp only [List.drop_zero, htake, if_pos hflag, hms]

/-- C6 witness: the theorem applied at the largest 56-bit value, far beyond
the year-9999 bound. -/
theorem c6_witness :
    (parse_field [0, 255, 255, 255, 255, 255, 255, 255] 0 1 8 false).1 =
      some (toString (beNat [0, 255, 255, 255, 255, 255, 255, 255])) :=
  c6_out_of_range_date [0, 255, 255, 255, 255, 255, 255, 255] false rfl rfl (by decide)

/-- C7 theorem: a LongOrDate whose byte after the type code is non-zero
renders as the plain decimal of the full 64-bit value (for any such bytes);
the 2000-01-01T00:00:00Z millisecond value with flag byte 0x00 renders as
`Sat Jan  1 00:00:00 2000` (which contains "2000"), and the same bytes with
leading 0x01 render as plain decimal, also end-to-end through the loop. -/
theorem c7_longordate_flag :
    (∀ (b d2 d3 d4 d5 d6 d7 d8 : Nat) (np : Bool),
      (parse_field [b + 1, d2, d3, d4, d5, d6, d7, d8] 0 1 8 np).1 =
        some (toString (beNat [b + 1, d2, d3, d4, d5, d6, d7, d8]))) ∧
    (parse_field [0, 0, 0, 220, 106, 207, 172, 0] 0 1 8 false).1 =
      some "Sat Jan  1 00:00:00 2000" ∧
    strContains "Sat Jan  1 00:00:00 2000" "2000" = true ∧
    (parse_field [1, 0, 0, 220, 106, 207, 172, 0] 0 1 8 false).1 =
      some "72058540722727936" ∧
    burp_to_xml CHUNK_SIZE false
      [60, 100, 62, 1, 0, 0, 0, 220, 106, 207, 172, 0, 60, 47, 100, 62] 2 =
      some (xmlHeader ++ "<d>Sat Jan  1 00:00:00 2000</d>" ++ "</burp>", none) := by
  refine ⟨?_, rfl, by decide, rfl, rfl⟩
  intro b d2 d3 d4 d5 d6 d7 d8 np
  have hur : ¬ ((([b + 1, d2, d3, d4, d5, d6, d7, d8] : List Nat).length : Int) -
      ((0 : Nat) : Int) < ((8 : Nat) : Int)) := by
    simp
  have h10 : ¬ ((1 : Nat) = 0) := by decide
  have hflag : ¬ (([b + 1, d2, d3, d4, d5, d6, d7, d8] : List Nat).getD 0 0 = 0) := by
    simp only [List.getD_cons_zero]
    omega
  unfold parse_field
  rw [if_neg hur, if_neg h10, if_pos rfl, if_neg hflag]
  rfl

/-- C8 counterexample: with `retainNonPrintable = false` a tab byte (0x09) —
outside the claim's kept set of letters, digits, punctuation and space —
survives the filter, so the decoded value differs from what the claim's kept
set would give. -/
theorem c8_counterexample :
    (parse_field [97, 9, 98] 0 3 3 false).1 = some "a\tb" ∧
    byteStr (List.filter specKeptByte [97, 9, 98]) = "ab" ∧
    ("a\tb" : String) ≠ "ab" :=
  ⟨rfl, rfl, by decide⟩

/-- C8 amended: the kept set is the bytes of `string.printable` minus vertical
tab and form feed — printable ASCII 0x20-0x7E plus tab, newline and carriage
return; the control byte 0x07 is dropped when `retainNonPrintable = false` and
preserved when it is true. -/
theorem c8_filter_set :
    (∀ b : Nat, b ∈ nvprint ↔ (32 ≤ b ∧ b ≤ 126) ∨ b = 9 ∨ b = 10 ∨ b = 13) ∧
    (parse_field [97, 7, 98] 0 3 3 false).1 = some "ab" ∧
    (parse_field [97, 7, 98] 0 3 3 true).1 = some "a\x07b" := by
  refine ⟨?_, rfl, rfl⟩
  intro b
  simp only [nvprint, List.mem_append, List.mem_range'_1, List.mem_cons,
    List.not_mem_nil, or_false]
  omega

/-- C9 theorem: a Boolean field renders a zero value byte as `False` and any
non-zero byte as `True`, for a value byte at any position; in particular the
encoded fields `[0x02, 0x01]` and `[0x02, 0x00]` decode to `True` and
`False`. -/
theorem c9_boolean_rendering :
    (∀ (pre : List Nat) (b : Nat) (post : List Nat) (np : Bool),
      (parse_field (pre ++ b :: post) pre.length 2 1 np).1 =
        some (if b = 0 then "False" else "True")) ∧
    identify_field [2, 1] 0 = some (2, 1, 1) ∧
    (parse_field [2, 1] 1 2 1 false).1 = some "True" ∧
    identify_field [2, 0] 0 = some (2, 1, 1) ∧
    (parse_field [2, 0] 1 2 1 false).1 = some "False" := by
  refine ⟨?_, rfl, rfl, rfl, rfl⟩
  intro pre b post np
  have hlen : ¬ (((pre ++ b :: post).length : Int) - (pre.length : Int) < ((1 : Nat) : Int)) := by
    rw [List.length_append, List.length_cons]
    push_cast
    omega
  unfold parse_field
  rw [if_neg hlen, if_neg (by decide), if_neg (by decide), if_pos rfl, getD_append_cons]

/-- C10 theorem: whenever the transcoder returns without raising (every ending
except the underrun crash, including the corrupt-data and unrecognized-byte
halts), the output is the XML declaration plus root opening tag, a middle
part, and the root closing tag. -/
theorem c10_output_wrapped (cs : Int) (np : Bool) (input : List Nat) (fuel : Nat)
    (out : String) (err : Option Err)
    (h1 : burp_to_xml cs np input fuel = some (out, err))
    (h2 : err ≠ some Err.underrun) :
    ∃ mid, out = xmlHeader ++ mid ++ "</burp>" := by
  simp only [burp_to_xml] at h1
  cases hr : runLoop cs np fuel (readAmt 100 input).2 (readAmt 100 input).1
      (tagMatch (readAmt 100 input).1 0) with
  | none =>
    rw [hr] at h1
    cases h1
  | some r =>
    rw [hr] at h1
    have h1e := Option.some.inj h1
    have ho : xmlHeader ++ r.1 ++ (if r.2 = some Err.underrun then "" else "</burp>") = out :=
      congrArg Prod.fst h1e
    have he : r.2 = err := congrArg Prod.snd h1e
    rw [← he] at h2
    refine ⟨r.1, ?_⟩
    rw [← ho, if_neg h2]

/-- C10 witness: the theorem applied to the corrupt-byte halt on
`<a>\x05`, whose output is still wrapped. -/
theorem c10_witness :
    burp_to_xml CHUNK_SIZE false [60, 97, 62, 5] 3 =
      some (xmlHeader ++ "<a>" ++ "</burp>", some Err.corrupt) ∧
    ∃ mid, xmlHeader ++ "<a>" ++ "</burp>" = xmlHeader ++ mid ++ "</burp>" :=
  ⟨rfl, c10_output_wrapped CHUNK_SIZE false [60, 97, 62, 5] 3
    (xmlHeader ++ "<a>" ++ "</burp>") (some Err.corrupt) rfl (by decide)⟩
